import Mathlib

/-!
Verification of the ordered-iteration engine of `cacache-level` (src/index.js).

The JavaScript source is shallowly embedded: JS strings are Lean `String`s,
JS numbers that hold list indices are `Int` (they can be negative, e.g. the
signed insertion-point convention of `binarySearch` and cursor positions
after a seek), and the asynchronous promise-based control flow is collapsed
to explicit state passing over a `Cursor` record (the ordering in the source
is sequential per cursor, so this is faithful).  `undefined`/`null` results
are `Option`.  The backing cacache store is a key/value association list;
`cacache.ls` is modelled by handing the listing (the key set) to the cursor
constructor, and a counter on the cursor records how many times the listing
was issued.
-/

/-- Three-way lexicographic comparison of character lists by code point. -/
def jsCharCompare : List Char → List Char → Int
  | [], [] => 0
  | [], _ :: _ => -1
  | _ :: _, [] => 1
  | a :: as, b :: bs =>
    if a.toNat < b.toNat then -1
    else if b.toNat < a.toNat then 1
    else jsCharCompare as bs

/-- Models `compare` (src/index.js:43) on the string branch: UTF-16
lexicographic three-way comparison `a < b ? -1 : a > b ? 1 : 0`.
Code-point order agrees with JS code-unit order on all keys without
surrogate pairs. -/
def jsCompare (a b : String) : Int :=
  jsCharCompare a.data b.data

/-- Models `compare(el, x)` where `el` may be the `kNone` sentinel `Symbol`
(src/index.js:16): comparing a `Symbol` in the source yields `NaN`, and in
`binarySearch`'s three-way branch `NaN` takes the same (equality) branch as
`0`, so the sentinel is modelled as comparing equal to everything. -/
def jsCompareEl (el : Option String) (x : String) : Int :=
  match el with
  | some a => jsCompare a x
  | none => 0

/-- Models `compare(a, b)` where `b` may be `undefined` (out-of-range index
read, e.g. `keys[0]` on an empty window): in JS both `a < undefined` and
`a > undefined` are false, so the three-way comparator returns `0`. -/
def jsCompareU (a : String) (b : Option String) : Int :=
  match b with
  | some s => jsCompare a s
  | none => 0

/-- Loop body of `binarySearch` (src/index.js:655): `m`/`hi` are the source's
`m` and `n + 1`; the probe index is `(n + m) >> 1 = (m + hi - 1) / 2`.
`fuel` bounds the iteration count; since `hi - m` strictly decreases each
iteration and the fuel-exhausted result `-m - 1` coincides with the loop-exit
result once `m ≥ hi`, any fuel `≥ hi - m` gives exactly the source's value. -/
def binarySearchGo (ar : List String) (el : Option String) : Nat → Nat → Nat → Int
  | 0, m, _ => -(m : Int) - 1
  | fuel + 1, m, hi =>
    if m < hi then
      if jsCompareEl el (ar.getD ((m + hi - 1) / 2) "") > 0 then
        binarySearchGo ar el fuel ((m + hi - 1) / 2 + 1) hi
      else if jsCompareEl el (ar.getD ((m + hi - 1) / 2) "") < 0 then
        binarySearchGo ar el fuel m ((m + hi - 1) / 2)
      else
        ((m + hi - 1) / 2 : Int)
    else -(m : Int) - 1

/-- Models `binarySearch(ar, el, compare)` (src/index.js:655): returns the
index of `el` if found, else `-(insertionPoint + 1)`. -/
def binarySearch (ar : List String) (el : Option String) : Int :=
  binarySearchGo ar el ar.length 0 ar.length

/-- Range options handed to the iterator constructors: presence of a bound
(`'gt' in options`) is `isSome`. -/
structure RangeOpts where
  gt : Option String := none
  gte : Option String := none
  lt : Option String := none
  lte : Option String := none
  reverse : Bool := false
deriving DecidableEq

/-- Models `'x' in options ? options.x : ('y' in options ? options.y : kNone)`
(src/index.js:681 and friends). -/
def firstPresent (a b : Option String) : Option String :=
  match a with
  | some v => some v
  | none => b

/-- Result record of `parseBounds` (src/index.js:759).  The source's `end`
field is named `endIdx` (`end` is a Lean keyword). -/
structure Bounds where
  start : Int
  endIdx : Int
  lowerBound : Option String
  upperBound : Option String
deriving DecidableEq

/-- Models `parseBounds(keys, options)` (src/index.js:672), including the
source's use of `upperBound` (not `lowerBound`) when computing `start` in
both directions, and `Math.abs(end)` in the reverse branch. -/
def parseBounds (keys : List String) (o : RangeOpts) : Bounds :=
  if o.reverse = false then
    let lowerBound := firstPresent o.gte o.gt
    let upperBound := firstPresent o.lte o.lt
    let start : Int :=
      match upperBound with
      | none => 0
      | some ub =>
        let s := binarySearch keys (some ub)
        if s < 0 then
          if s = -1 then 0 else -s
        else
          if o.gt.isSome then s + 1 else s
    let endIdx : Int :=
      match upperBound with
      | none => (keys.length : Int) - 1
      | some ub =>
        let e := binarySearch keys (some ub)
        if e < 0 then
          if e = -1 then (keys.length : Int) - 1 else -e - 1
        else
          if o.lt.isSome then e - 1 else e
    ⟨start, endIdx, lowerBound, upperBound⟩
  else
    let lowerBound := firstPresent o.lte o.lt
    let upperBound := firstPresent o.gte o.gt
    let start : Int :=
      match lowerBound with
      | none => (keys.length : Int) - 1
      | some _ =>
        let s := binarySearch keys upperBound
        let s' := if s < 0 then (if s = -1 then (keys.length : Int) - 1 else -s - 1) else s
        if o.lt.isSome then s' - 1 else s'
    let endIdx : Int :=
      match upperBound with
      | none => (keys.length : Int) - 1
      | some ub =>
        let e := binarySearch keys (some ub)
        let e' := if e < 0 then (if e = -1 then (keys.length : Int) - 1 else |e|) else e
        if o.gt.isSome then e' + 1 else e'
    ⟨start, endIdx, lowerBound, upperBound⟩

/-- Models `Array.prototype.splice(start, deleteCount)`'s returned slice
(src/index.js:184): a negative `start` counts from the end, both arguments
are clamped to the array. -/
def jsSplice (l : List String) (start count : Int) : List String :=
  let len : Int := l.length
  let s : Int := if start < 0 then max (len + start) 0 else min start len
  (l.drop s.toNat).take (max count 0).toNat

/-- The window `keys.splice(start, end - start + 1)` materialized by `kInit`
(src/index.js:184) from the resolved bounds. -/
def windowOf (keys : List String) (o : RangeOpts) : List String :=
  let b := parseBounds keys o
  jsSplice keys b.start (b.endIdx - b.start + 1)

/-- Models one insertion step of the sort in `kInit`; `jsSort` models
`entries.map(e => e.key).sort(compare)` (src/index.js:176): the sorted key
listing (stability is irrelevant, cacache keys are unique). -/
def jsSortInsert (x : String) : List String → List String
  | [] => [x]
  | y :: ys => if jsCompare x y ≤ 0 then x :: y :: ys else y :: jsSortInsert x ys

def jsSort (l : List String) : List String :=
  l.foldr jsSortInsert []

/-- Seek options recorded by `_seek` (src/index.js:294).  The source tests
both presence (`'gt' in options`) and truthiness (`options.gt ||`), so each
flag is `Option Bool`: `isSome` is presence, `getD false` is truthiness. -/
structure SeekOpts where
  target : String
  gt : Option Bool := none
  gte : Option Bool := none
  lt : Option Bool := none
  lte : Option Bool := none
deriving DecidableEq

/-- Cursor state shared by the three iterator classes (src/index.js:162).
`keys` is `kIndexKeys` (the spliced window), `cursor`/`done` are
`kCursor`/`kDone` (`kDone` starts undefined, i.e. falsy), `seekOpts` is
`kSeekOptions`, `batchSize` is `kBatchSize`; `lsCalls` counts how many
`cacache.ls` listings this cursor has issued.  `kConcurrency` is not
modelled: `pMap` preserves input order, so concurrency does not affect any
value-level result. -/
structure Cursor where
  keys : List String
  cursor : Int
  done : Bool
  reverse : Bool
  seekOpts : Option SeekOpts
  lsCalls : Nat
  batchSize : Nat
deriving DecidableEq

/-- Models `kInit` (src/index.js:162) with the index promise resolved: one
`cacache.ls` listing is issued immediately during construction, the keys are
sorted, bounds are resolved and the window spliced out, and the cursor
position starts at `0` for both directions. -/
def kInit (storeKeys : List String) (o : RangeOpts) (batchSize : Nat := 50) : Cursor :=
  let keys := jsSort storeKeys
  { keys := windowOf keys o
    cursor := 0
    done := false
    reverse := o.reverse
    seekOpts := none
    lsCalls := 1
    batchSize := batchSize }

/-- Models a JS array read `l[i]`: `undefined` (here `none`) when out of
range, which includes every negative index. -/
def jsIndex (l : List String) (i : Int) : Option String :=
  if i < 0 then none else l.get? i.toNat

/-- JS falsiness of a possibly-undefined string (`!key` in the source):
`undefined`, `null` and the empty string are falsy. -/
def jsFalsy (o : Option String) : Bool :=
  match o with
  | none => true
  | some s => s = ""

/-- Models `kAdvanceNext` (src/index.js:188): returns the key under the
cursor and the post-advance state. -/
def kAdvanceNext (c : Cursor) : Option String × Cursor :=
  if c.done then (none, c)
  else if c.cursor < (c.keys.length : Int) then
    let key := jsIndex c.keys c.cursor
    let cur := c.cursor + 1
    (key, { c with cursor := cur, done := decide (cur ≥ (c.keys.length : Int)) })
  else (none, { c with done := true })

/-- Models `kAdvancePrev` (src/index.js:205): reads the key at the current
cursor, then decrements (`keys[cursor--]`); done once the cursor reaches 0. -/
def kAdvancePrev (c : Cursor) : Option String × Cursor :=
  if c.done then (none, c)
  else if c.cursor > 0 then
    let key := jsIndex c.keys c.cursor
    let cur := c.cursor - 1
    (key, { c with cursor := cur, done := decide (cur = 0) })
  else (none, { c with done := true })

/-- Models `kAdvance`, assigned in `kInit` from the direction
(src/index.js:173). -/
def kAdvance (c : Cursor) : Option String × Cursor :=
  if c.reverse then kAdvancePrev c else kAdvanceNext c

/-- Models the seek-resolution block of `kAwaitIndex` (src/index.js:309),
run once the index promise has resolved.  Faithful details: the boundary
checks use `'x' in options` presence, the `pos === -1` inner branches use
truthiness (`options.gt || options.gte`); in the forward general path `done`
is recomputed as `pos >= keys.length` at the end, while the reverse general
path never updates `done`. -/
def applySeek (c : Cursor) (o : SeekOpts) : Cursor :=
  let keys := c.keys
  let len : Int := keys.length
  if c.reverse = false then
    if jsCompareU o.target keys.head? < 0 then
      -- target below keys[0]
      if o.gt.isSome || o.gte.isSome then { c with done := false, cursor := 0 }
      else { c with done := true, cursor := len }
    else if jsCompareU o.target keys.getLast? > 0 then
      -- target above keys[keys.length - 1]
      if o.lt.isSome || o.lte.isSome then { c with done := false, cursor := 0 }
      else { c with done := true, cursor := -1 }
    else
      let pos := binarySearch keys (some o.target)
      if pos < 0 then
        if pos = -1 then
          if o.gt.getD false || o.gte.getD false then
            { c with cursor := 0, done := decide ((0 : Int) ≥ len) }
          else
            { c with cursor := len, done := true }
        else
          { c with cursor := -pos, done := decide (-pos ≥ len) }
      else
        let p := if o.gt.isSome then pos + 1 else pos
        { c with cursor := p, done := decide (p ≥ len) }
  else
    if jsCompareU o.target keys.getLast? > 0 then
      -- reverse: target above keys[keys.length - 1]
      if o.lt.isSome || o.lte.isSome then { c with done := false, cursor := len - 1 }
      else { c with done := true, cursor := -1 }
    else if jsCompareU o.target keys.head? < 0 then
      -- reverse: target below keys[0]
      if o.gt.isSome || o.gte.isSome then { c with done := false, cursor := len - 1 }
      else { c with done := true, cursor := 0 }
    else
      let pos := binarySearch keys (some o.target)
      if pos < 0 then
        if pos = -1 then
          if o.lt.getD false || o.lte.getD false then
            { c with done := false, cursor := len - 1 }
          else
            { c with done := true, cursor := -1 }
        else
          { c with cursor := -pos - 1 }
      else
        { c with cursor := if o.gt.isSome then pos - 1 else pos }

/-- Models `kAwaitIndex` (src/index.js:301): with no pending seek it just
awaits the (already memoized) index promise; otherwise it clears and applies
the recorded seek options. -/
def kAwaitIndex (c : Cursor) : Cursor :=
  match c.seekOpts with
  | none => c
  | some o => applySeek { c with seekOpts := none } o

/-- Models `_seek` (src/index.js:294): records `{ ...options, target }`
without touching the index; a later seek overwrites an earlier one. -/
def seekRecord (c : Cursor) (o : SeekOpts) : Cursor :=
  { c with seekOpts := some o }

/-- The value object resolved by `cacache.get` (only the `data` field is
ever read by this layer). -/
structure CacheEntry where
  data : String
deriving DecidableEq

/-- The backing store's key→data association, as observed through
`cacache.get`. -/
abbrev Store := List (String × String)

/-- Models `fetch` (src/index.js:629): resolves the entry, or `undefined`
when the key is absent (`ENOENT`). -/
def fetch (store : Store) (key : String) : Option CacheEntry :=
  (store.lookup key).map CacheEntry.mk

/-- Models `getMany`'s `pMap(keys, key => fetch(location, key))`
(src/index.js:641): order-preserving, one result slot per key. -/
def getMany (store : Store) (keys : List String) : List (Option CacheEntry) :=
  keys.map (fetch store)

/-- Collapses a fetch-result list: `some` of all entries when every key was
present, `none` as soon as any slot is `undefined` (whose `.data` access in
the source throws). -/
def allSome : List (Option CacheEntry) → Option (List CacheEntry)
  | [] => some []
  | none :: _ => none
  | some e :: rest => (allSome rest).map (e :: ·)

/-- Outcome of one callback-style cursor operation:
`empty` — the callback was invoked with no result argument;
`entries l` — the callback was invoked with entries `l`;
`failed e` — the callback was invoked with error `e`;
`crashed` — a `TypeError` was thrown while evaluating the callback's
arguments (reading `.data` of `undefined`), so the callback never completes. -/
inductive OpResult where
  | empty
  | entries (l : List (String × String))
  | failed (e : String)
  | crashed
deriving DecidableEq

/-- The entries a single operation outcome delivered to the caller. -/
def OpResult.delivered : OpResult → List (String × String)
  | .entries l => l
  | _ => []

/-- Models `kNext` (src/index.js:221): await/seek, advance once, then fetch
the single value.  When the key's value is absent, `getValue` invokes the
continuation with `err = Error('NotFound')` and `value = undefined`, and the
continuation evaluates `value.data` before checking `err`, throwing a
`TypeError`; the throw is re-fed to the same continuation by `getValue`'s
`.catch` and throws again, so the operation crashes instead of reporting. -/
def kNext (store : Store) (c : Cursor) : OpResult × Cursor :=
  let c := kAwaitIndex c
  let r := kAdvance c
  if jsFalsy r.1 then (.empty, r.2)
  else
    let k := r.1.getD ""
    match fetch store k with
    | none => (.crashed, r.2)
    | some e => (.entries [(k, e.data)], r.2)

/-- Loop body of `getKeyBatch` (src/index.js:231), a do-while: advance, stop
on a falsy key, otherwise collect and continue while fewer than `batchSize`
keys were collected.  `fuel` bounds the iterations; every recursive call has
appended a key and recursion requires `acc.length < batchSize`, so the
initial fuel `batchSize + 1` is never exhausted. -/
def getKeyBatchGo (batchSize : Nat) : Nat → Cursor → List String → List String × Cursor
  | 0, c, acc => (acc, c)
  | fuel + 1, c, acc =>
    let r := kAdvance c
    if jsFalsy r.1 then (acc, r.2)
    else
      let acc' := acc ++ [r.1.getD ""]
      if acc'.length < batchSize then getKeyBatchGo batchSize fuel r.2 acc'
      else (acc', r.2)

def getKeyBatch (c : Cursor) (batchSize : Nat) : List String × Cursor :=
  getKeyBatchGo batchSize (batchSize + 1) c []

/-- Models `kNextv` (src/index.js:242): take a key batch, fetch all values
(order preserved by `pMap`), and pair them up.  A missing value makes the
result-building loop read `.data` of `undefined`; the `TypeError` is caught
by `getMany`'s `.catch(callback)`, so the whole batch fails with that error. -/
def kNextv (store : Store) (size : Nat) (c : Cursor) : OpResult × Cursor :=
  let c := kAwaitIndex c
  let r := getKeyBatch c size
  match allSome (getMany store r.1) with
  | none => (.failed "TypeError", r.2)
  | some entries => (.entries (r.1.zip (entries.map CacheEntry.data)), r.2)

/-- Loop of `kAll` (src/index.js:271): repeatedly drain `batchSize` keys and
fetch their values until a batch comes back empty.  `fuel` bounds the
iterations (each recursive call consumed at least one window position, so
`keys.length + 2` from `kAll` is never exhausted in a reachable state); the
`entries.length = 0` early return mirrors the source's dead
`values.length === 0` check. -/
def kAllGo (store : Store) (batchSize : Nat) : Nat → Cursor → List (String × String) → OpResult × Cursor
  | 0, c, acc => (.entries acc, c)
  | fuel + 1, c, acc =>
    let r := getKeyBatch c batchSize
    if r.1.length = 0 then (.entries acc, r.2)
    else
      match allSome (getMany store r.1) with
      | none => (.failed "TypeError", r.2)
      | some entries =>
        let acc' := acc ++ r.1.zip (entries.map CacheEntry.data)
        if entries.length = 0 then (.entries acc', r.2)
        else kAllGo store batchSize fuel r.2 acc'

/-- Models `kAll` (src/index.js:260): on an already-done cursor the callback
is invoked with no result argument; otherwise the drain loop runs. -/
def kAll (store : Store) (c : Cursor) : OpResult × Cursor :=
  let c := kAwaitIndex c
  if c.done then (.empty, c)
  else kAllGo store c.batchSize (c.keys.length + 2) c []

/-- Loop of `KeyIterator._all` (src/index.js:116): `while (!done)` advance
and collect, breaking when the advance returns `null` (modelled `none`). -/
def keysAllGo : Nat → Cursor → List String → List String × Cursor
  | 0, c, acc => (acc, c)
  | fuel + 1, c, acc =>
    if c.done then (acc, c)
    else
      let r := kAdvance c
      match r.1 with
      | none => (acc, r.2)
      | some k => keysAllGo fuel r.2 (acc ++ [k])

/-- Models `KeyIterator._all` (src/index.js:116). -/
def keysAll (c : Cursor) : List String × Cursor :=
  let c := kAwaitIndex c
  keysAllGo (c.keys.length + 2) c []

/-- Outcome of a `ValueIterator` operation (values only). -/
inductive ValResult where
  | empty
  | vals (l : List String)
  | failed (e : String)
  | crashed
deriving DecidableEq

/-- Models `ValueIterator._next` (src/index.js:137): invoke `kNext` and pass
the value component on (at end-of-iteration the callback receives
`value = undefined`, i.e. the empty outcome). -/
def valueNext (store : Store) (c : Cursor) : ValResult × Cursor :=
  let r := kNext store c
  (match r.1 with
   | .empty => .empty
   | .entries l => .vals (l.map Prod.snd)
   | .failed e => .failed e
   | .crashed => .crashed, r.2)

/-- Models `ValueIterator._nextv` (src/index.js:144): on success map each
entry to `value[1]`; with no `values` array the `.map` call itself would
throw. -/
def valueNextv (store : Store) (size : Nat) (c : Cursor) : ValResult × Cursor :=
  let r := kNextv store size c
  (match r.1 with
   | .empty => .crashed
   | .entries l => .vals (l.map Prod.snd)
   | .failed e => .failed e
   | .crashed => .crashed, r.2)

/-- Models `ValueIterator._all` (src/index.js:152): like `_nextv`; when
`kAll` invokes the callback with no `values` array (exhausted cursor), the
callback's `values.map(...)` reads a property of `undefined` and throws a
`TypeError`. -/
def valueAll (store : Store) (c : Cursor) : ValResult × Cursor :=
  let r := kAll store c
  (match r.1 with
   | .empty => .crashed
   | .entries l => .vals (l.map Prod.snd)
   | .failed e => .failed e
   | .crashed => .crashed, r.2)

/-- One user-visible operation on an entries cursor. -/
inductive CursorOp where
  | next
  | nextv (size : Nat)
  | all
  | seek (o : SeekOpts)
deriving DecidableEq

def CursorOp.isSeek : CursorOp → Bool
  | .seek _ => true
  | _ => false

/-- Dispatch one operation on an entries cursor (`seek` completes
synchronously and delivers nothing). -/
def runOp (store : Store) (c : Cursor) : CursorOp → OpResult × Cursor
  | .next => kNext store c
  | .nextv size => kNextv store size c
  | .all => kAll store c
  | .seek o => (.empty, seekRecord c o)

/-- Run a sequence of operations, collecting each outcome. -/
def runOps (store : Store) : List CursorOp → Cursor → List OpResult × Cursor
  | [], c => ([], c)
  | op :: ops, c =>
    let r := runOp store c op
    let rs := runOps store ops r.2
    (r.1 :: rs.1, rs.2)

/-- One operation of a `_batch` call: a `type` tag plus key and value. -/
structure BatchOp where
  type : String
  key : String
  value : String := ""
deriving DecidableEq

/-- A store mutation dispatched by `_batch`: `cacache.put` for a put run,
`cacache.rm.content` for a del run. -/
inductive BatchAction where
  | putC (key value : String)
  | rmContent (key : String)
deriving DecidableEq

/-- Loop of `_batch` (src/index.js:517): take the maximal run of operations
sharing the head's type; dispatch a put-run or a del-run and continue, and
for any other type invoke the callback — with no error — and stop, dropping
the rest.  The store mutations themselves are modelled as succeeding (their
I/O failure paths are out of scope), so the second component is the error
the callback received, always `none`.  `fuel` bounds the iterations; each
round consumes the nonempty head run, so `ops.length + 1` is never
exhausted. -/
def batchLoop : Nat → List BatchOp → List BatchAction × Option String
  | 0, _ => ([], none)
  | _ + 1, [] => ([], none)
  | fuel + 1, op :: rest =>
    let run := (op :: rest).takeWhile (fun x => x.type = op.type)
    let rest' := (op :: rest).dropWhile (fun x => x.type = op.type)
    if op.type = "put" then
      let r := batchLoop fuel rest'
      (run.map (fun x => BatchAction.putC x.key x.value) ++ r.1, r.2)
    else if op.type = "del" then
      let r := batchLoop fuel rest'
      (run.map (fun x => BatchAction.rmContent x.key) ++ r.1, r.2)
    else ([], none)

/-- Models `_batch` (src/index.js:498): the actions applied to the store, in
order, and the error (if any) reported to the caller. -/
def jsBatch (ops : List BatchOp) : List BatchAction × Option String :=
  batchLoop (ops.length + 1) ops

/-- An operation type the grouping loop recognizes. -/
def recognizedOp (x : BatchOp) : Bool :=
  x.type = "put" || x.type = "del"

/-- The action a recognized operation is dispatched as. -/
def toAction (x : BatchOp) : BatchAction :=
  if x.type = "put" then .putC x.key x.value else .rmContent x.key

/-- The value-iterator outcome that projecting an entries-iterator outcome
componentwise would produce (the relation the refinement claim asserts). -/
def projectVals : OpResult → ValResult
  | .empty => .empty
  | .entries l => .vals (l.map Prod.snd)
  | .failed e => .failed e
  | .crashed => .crashed

theorem binarySearchGo_bounds (ar : List String) (el : Option String) :
    ∀ fuel m hi, m ≤ hi → hi ≤ ar.length →
      -(hi : Int) - 1 ≤ binarySearchGo ar el fuel m hi ∧
      binarySearchGo ar el fuel m hi < (ar.length : Int) := by
  intro fuel
  induction fuel with
  | zero =>
    intro m hi h1 h2
    simp only [binarySearchGo]
    omega
  | succ fuel ih =>
    intro m hi h1 h2
    simp only [binarySearchGo]
    split
    · next hlt =>
      split
      · exact
          have h := ih ((m + hi - 1) / 2 + 1) hi (by omega) h2
          ⟨by omega, h.2⟩
      · split
        · exact
            have h := ih m ((m + hi - 1) / 2) (by omega) (by omega)
            ⟨by omega, h.2⟩
        · omega
    · omega

theorem binarySearch_bounds (ar : List String) (el : Option String) :
    -(ar.length : Int) - 1 ≤ binarySearch ar el ∧ binarySearch ar el < (ar.length : Int) :=
  binarySearchGo_bounds ar el ar.length 0 ar.length (Nat.zero_le _) le_rfl

theorem jsSplice_sublist (l : List String) (a b : Int) : (jsSplice l a b).Sublist l := by
  unfold jsSplice
  exact (List.take_sublist _ _).trans (List.drop_sublist _ _)

/-- Forward `parseBounds` start with no upper bound present. -/
theorem parseBounds_fwd_start_none (keys : List String) (o : RangeOpts)
    (h : o.reverse = false) (hub : firstPresent o.lte o.lt = none) :
    (parseBounds keys o).start = 0 := by
  unfold parseBounds
  rw [if_pos h, hub]

/-- Forward `parseBounds` start with an upper bound present. -/
theorem parseBounds_fwd_start_some (keys : List String) (o : RangeOpts)
    (h : o.reverse = false) (ub : String) (hub : firstPresent o.lte o.lt = some ub) :
    (parseBounds keys o).start =
      (if binarySearch keys (some ub) < 0 then
        (if binarySearch keys (some ub) = -1 then 0 else -binarySearch keys (some ub))
      else
        (if o.gt.isSome then binarySearch keys (some ub) + 1 else binarySearch keys (some ub))) := by
  unfold parseBounds
  rw [if_pos h, hub]

/-- Forward `parseBounds` end with no upper bound present. -/
theorem parseBounds_fwd_endIdx_none (keys : List String) (o : RangeOpts)
    (h : o.reverse = false) (hub : firstPresent o.lte o.lt = none) :
    (parseBounds keys o).endIdx = (keys.length : Int) - 1 := by
  unfold parseBounds
  rw [if_pos h, hub]

/-- Forward `parseBounds` end with an upper bound present. -/
theorem parseBounds_fwd_endIdx_some (keys : List String) (o : RangeOpts)
    (h : o.reverse = false) (ub : String) (hub : firstPresent o.lte o.lt = some ub) :
    (parseBounds keys o).endIdx =
      (if binarySearch keys (some ub) < 0 then
        (if binarySearch keys (some ub) = -1 then (keys.length : Int) - 1
          else -binarySearch keys (some ub) - 1)
      else
        (if o.lt.isSome then binarySearch keys (some ub) - 1 else binarySearch keys (some ub))) := by
  unfold parseBounds
  rw [if_pos h, hub]

/-- C7 (amended): the window materialized from the resolved bounds is always
a sub-sequence of the snapshot (no delivered key lies outside it), and for a
forward resolution `0 <= startPos` and `endPos <= len(keys)`; the spec's
stronger invariant `startPos <= endPos + 1 <= len` does not hold and no
clamping to `[0, len - 1]` is performed. -/
theorem c7_bounds_amended (keys : List String) (o : RangeOpts) :
    (windowOf keys o).Sublist keys ∧
    (o.reverse = false →
      0 ≤ (parseBounds keys o).start ∧
        (parseBounds keys o).endIdx ≤ (keys.length : Int)) := by
  constructor
  · exact jsSplice_sublist keys _ _
  · intro hrev
    cases hub : firstPresent o.lte o.lt with
    | none =>
      rw [parseBounds_fwd_start_none keys o hrev hub,
        parseBounds_fwd_endIdx_none keys o hrev hub]
      omega
    | some ub =>
      have hb := binarySearch_bounds keys (some ub)
      rw [parseBounds_fwd_start_some keys o hrev ub hub,
        parseBounds_fwd_endIdx_some keys o hrev ub hub]
      constructor
      · split
        · split <;> omega
        · split <;> omega
      · split
        · split <;> omega
        · split <;> omega

/-- C7 (counterexample): the claimed invariant
`0 <= startPos <= endPos + 1 <= len(keys)` fails.  With keys `["a","b"]` and
`{lte:"z"}` the resolver yields `start = 3`, `end = 2`, so `endPos + 1 = 3`
exceeds `len = 2` (nothing is clamped to `[0, len - 1]`); with
`{gt:"c", lt:"a"}` it yields `start = 1`, `end = -1`, so
`startPos > endPos + 1`. -/
theorem c7_bounds_counterexample :
    ¬(0 ≤ (parseBounds ["a", "b"] { lte := some "z" }).start ∧
        (parseBounds ["a", "b"] { lte := some "z" }).start ≤
          (parseBounds ["a", "b"] { lte := some "z" }).endIdx + 1 ∧
        (parseBounds ["a", "b"] { lte := some "z" }).endIdx + 1 ≤
          ((["a", "b"] : List String).length : Int)) ∧
    ¬((parseBounds ["a", "b"] { gt := some "c", lt := some "a" }).start ≤
        (parseBounds ["a", "b"] { gt := some "c", lt := some "a" }).endIdx + 1) := by
  decide

/-- C7 (witness): the amended invariant instantiated at keys `["a","b"]`
with `{lte:"z"}`, discharging the forward-direction hypothesis. -/
theorem c7_bounds_amended_witness :
    (windowOf ["a", "b"] { lte := some "z" }).Sublist ["a", "b"] ∧
    0 ≤ (parseBounds ["a", "b"] { lte := some "z" }).start ∧
      (parseBounds ["a", "b"] { lte := some "z" }).endIdx ≤
        ((["a", "b"] : List String).length : Int) :=
  ⟨(c7_bounds_amended ["a", "b"] { lte := some "z" }).1,
    (c7_bounds_amended ["a", "b"] { lte := some "z" }).2 rfl⟩

/-- C1: evaluating the code at the spec's own scenario.  For keys
`["a","b","c","d","e"]` and range `{gt:"b", lte:"d"}`, `parseBounds`
computes `start` from the upper bound (yielding `start = 4 > end = 3`), the
materialized window is empty, and forward iteration delivers nothing — not
the claimed `["c","d"]`. -/
theorem c1_forward_range_window_empty :
    parseBounds ["a", "b", "c", "d", "e"] { gt := some "b", lte := some "d" } =
        ⟨4, 3, some "b", some "d"⟩ ∧
    (kInit ["a", "b", "c", "d", "e"] { gt := some "b", lte := some "d" }).keys = [] ∧
    (keysAll (kInit ["a", "b", "c", "d", "e"] { gt := some "b", lte := some "d" })).1 = [] ∧
    (kAll [("a", "1"), ("b", "2"), ("c", "3"), ("d", "4"), ("e", "5")]
        (kInit ["a", "b", "c", "d", "e"] { gt := some "b", lte := some "d" })).1 =
      OpResult.entries [] := by
  decide

/-- C3: evaluating the code at the spec's reverse scenario.  For keys
`["a","b","c","d","e"]` and range `{gt:"b", lte:"d", reverse}`, `kInit`
leaves the cursor at `0` (not at the window's end position) and
`kAdvancePrev` exhausts immediately at cursor `0`, so reverse iteration
delivers nothing — not the claimed `["d","c"]` (the resolved window
`["b","c"]` is itself wrong as well). -/
theorem c3_reverse_iteration_empty :
    (kInit ["a", "b", "c", "d", "e"] { gt := some "b", lte := some "d", reverse := true }).cursor
        = 0 ∧
    (kInit ["a", "b", "c", "d", "e"]
        { gt := some "b", lte := some "d", reverse := true }).keys = ["b", "c"] ∧
    (keysAll (kInit ["a", "b", "c", "d", "e"]
        { gt := some "b", lte := some "d", reverse := true })).1 = [] ∧
    (kAll [("a", "1"), ("b", "2"), ("c", "3"), ("d", "4"), ("e", "5")]
        (kInit ["a", "b", "c", "d", "e"] { gt := some "b", lte := some "d", reverse := true })).1 =
      OpResult.entries [] := by
  decide

/-- C2: evaluating the code at a failing input.  Over keys `["a","c","e"]`,
an inclusive `seek("b")` followed by `next()` should yield the smallest key
`>= "b"`, i.e. `"c"`; the seek resolution maps the binary-search result `-2`
to cursor `-(-2) = 2` (one past the insertion point its own comment
describes), so `next()` returns `"e"`. -/
theorem c2_seek_inclusive_in_gap_overshoots :
    (kAwaitIndex (seekRecord (kInit ["a", "c", "e"] {}) { target := "b" })).cursor = 2 ∧
    (kNext [("a", "1"), ("c", "2"), ("e", "3")]
        (seekRecord (kInit ["a", "c", "e"] {}) { target := "b" })).1 =
      OpResult.entries [("e", "3")] := by
  decide

/-- C5 (counterexample): a forward seek whose target `"A"` lies strictly
below the first key `"a"` and that carries the exclusive flag `gt` does not
exhaust the cursor: the code rewinds it to the window start (`done = false`,
cursor `0`) and the following `next()` delivers the first entry. -/
theorem c5_seek_below_first_counterexample :
    (kAwaitIndex (seekRecord (kInit ["a", "b"] {})
        { target := "A", gt := some true })).done = false ∧
    (kNext [("a", "x"), ("b", "y")]
        (seekRecord (kInit ["a", "b"] {}) { target := "A", gt := some true })).1 =
      OpResult.entries [("a", "x")] := by
  decide

/-- C6: evaluating the code where the listed key `"a"` has no value at fetch
time.  `getValue` does construct `Error('NotFound')`, but `kNext`'s
continuation evaluates `value.data` with `value = undefined` before checking
the error, so the single-entry read crashes with a `TypeError` instead of
reporting `NotFound`; the batch reads (`kNextv`, `kAll`) never see a
`NotFound` at all — `fetch` maps the miss to `undefined` and the
result-pairing loop's `values[i].data` raises the `TypeError` that fails the
batch. -/
theorem c6_missing_value_crashes :
    (kNext [] (kInit ["a"] {})).1 = OpResult.crashed ∧
    (kNextv [] 1 (kInit ["a"] {})).1 = OpResult.failed "TypeError" ∧
    (kAll [] (kInit ["a"] {})).1 = OpResult.failed "TypeError" := by
  decide

/-- C5 (amended): on a forward cursor, a seek whose target compares below
the window's first key rewinds to the window start (`done = false`,
position `0`) whenever the seek carries a `gt` or `gte` flag, and becomes
exhausted immediately (`done = true`) only when it carries neither. -/
theorem c5_seek_below_first_amended (c : Cursor) (o : SeekOpts)
    (hrev : c.reverse = false)
    (hlow : jsCompareU o.target c.keys.head? < 0) :
    ((o.gt.isSome || o.gte.isSome) = true →
        (applySeek c o).done = false ∧ (applySeek c o).cursor = 0) ∧
    ((o.gt.isSome || o.gte.isSome) = false →
        (applySeek c o).done = true ∧
          (applySeek c o).cursor = (c.keys.length : Int)) := by
  simp only [applySeek]
  rw [if_pos hrev, if_pos hlow]
  constructor
  · intro h
    rw [if_pos h]
    exact ⟨rfl, rfl⟩
  · intro h
    rw [if_neg (by simp [h])]
    exact ⟨rfl, rfl⟩

/-- C5 (witness): the amended statement instantiated at window `["a","b"]`
and seek `{target:"A", gt}`. -/
theorem c5_seek_below_first_amended_witness :
    (applySeek (kInit ["a", "b"] {}) { target := "A", gt := some true }).done = false ∧
    (applySeek (kInit ["a", "b"] {}) { target := "A", gt := some true }).cursor = 0 :=
  (c5_seek_below_first_amended (kInit ["a", "b"] {}) { target := "A", gt := some true }
    (by decide) (by decide)).1 (by decide)

theorem kAwaitIndex_of_no_seek (c : Cursor) (h : c.seekOpts = none) : kAwaitIndex c = c := by
  unfold kAwaitIndex
  rw [h]

theorem kAdvance_of_done (c : Cursor) (h : c.done = true) : kAdvance c = (none, c) := by
  unfold kAdvance kAdvancePrev kAdvanceNext
  rw [h]
  split <;> rfl

/-- A non-seek operation on an exhausted cursor with no pending seek leaves
the state unchanged and delivers nothing. -/
theorem runOp_of_done (store : Store) (c : Cursor) (op : CursorOp)
    (hd : c.done = true) (hs : c.seekOpts = none) (hop : op.isSeek = false) :
    (runOp store c op).1.delivered = [] ∧ (runOp store c op).2 = c := by
  cases op with
  | next =>
    simp [runOp, kNext, kAwaitIndex_of_no_seek c hs, kAdvance_of_done c hd, jsFalsy,
      OpResult.delivered]
  | nextv size =>
    simp [runOp, kNextv, kAwaitIndex_of_no_seek c hs, getKeyBatch, getKeyBatchGo,
      kAdvance_of_done c hd, jsFalsy, getMany, allSome, OpResult.delivered]
  | all =>
    simp [runOp, kAll, kAwaitIndex_of_no_seek c hs, hd, OpResult.delivered]
  | seek o =>
    simp [CursorOp.isSeek] at hop

/-- C4: exhaustion is monotonic.  From any cursor state with `done = true`
and no pending seek, running any sequence of non-seek operations
(`next` / `nextv` / `all`) delivers no entries at any step (and, by the
underlying lemma, never changes the state). -/
theorem c4_exhaustion_monotonic (store : Store) (ops : List CursorOp) (c : Cursor)
    (hd : c.done = true) (hs : c.seekOpts = none)
    (hno : ∀ op ∈ ops, op.isSeek = false) :
    ∀ r ∈ (runOps store ops c).1, r.delivered = [] := by
  induction ops with
  | nil => simp [runOps]
  | cons op ops ih =>
    intro r hr
    have h1 := runOp_of_done store c op hd hs (hno op (List.mem_cons_self op ops))
    simp only [runOps, List.mem_cons] at hr
    rcases hr with h | h
    · rw [h]
      exact h1.1
    · rw [h1.2] at h
      exact ih (fun op' h' => hno op' (List.mem_cons_of_mem op h')) r h

/-- C4 (witness): a concrete exhausted cursor run through
`[next, nextv 3, all]` delivers no entries on its first operation. -/
theorem c4_exhaustion_monotonic_witness :
    OpResult.delivered
        ((runOps [("a", "x")] [CursorOp.next, CursorOp.nextv 3, CursorOp.all]
            ⟨["a"], 1, true, false, none, 1, 50⟩).1.headD .empty) = [] :=
  c4_exhaustion_monotonic [("a", "x")] [CursorOp.next, CursorOp.nextv 3, CursorOp.all]
    ⟨["a"], 1, true, false, none, 1, 50⟩ rfl rfl (by decide)
    ((runOps [("a", "x")] [CursorOp.next, CursorOp.nextv 3, CursorOp.all]
        ⟨["a"], 1, true, false, none, 1, 50⟩).1.headD .empty) (by decide)

set_option maxHeartbeats 1000000 in
theorem applySeek_lsCalls (c : Cursor) (o : SeekOpts) :
    (applySeek c o).lsCalls = c.lsCalls := by
  simp only [applySeek]
  repeat' split
  all_goals rfl

theorem kAwaitIndex_lsCalls (c : Cursor) : (kAwaitIndex c).lsCalls = c.lsCalls := by
  unfold kAwaitIndex
  split
  · rfl
  · rw [applySeek_lsCalls]

theorem kAdvance_lsCalls (c : Cursor) : (kAdvance c).2.lsCalls = c.lsCalls := by
  simp only [kAdvance, kAdvancePrev, kAdvanceNext]
  repeat' split
  all_goals rfl

theorem getKeyBatchGo_lsCalls (batchSize : Nat) :
    ∀ fuel c acc, (getKeyBatchGo batchSize fuel c acc).2.lsCalls = c.lsCalls := by
  intro fuel
  induction fuel with
  | zero => intro c acc; rfl
  | succ fuel ih =>
    intro c acc
    simp only [getKeyBatchGo]
    split
    · exact kAdvance_lsCalls c
    · split
      · rw [ih]
        exact kAdvance_lsCalls c
      · exact kAdvance_lsCalls c

theorem getKeyBatch_lsCalls (c : Cursor) (batchSize : Nat) :
    (getKeyBatch c batchSize).2.lsCalls = c.lsCalls :=
  getKeyBatchGo_lsCalls batchSize (batchSize + 1) c []

theorem kAllGo_lsCalls (store : Store) (batchSize : Nat) :
    ∀ fuel c acc, (kAllGo store batchSize fuel c acc).2.lsCalls = c.lsCalls := by
  intro fuel
  induction fuel with
  | zero => intro c acc; rfl
  | succ fuel ih =>
    intro c acc
    simp only [kAllGo]
    split
    · exact getKeyBatch_lsCalls c batchSize
    · split
      · exact getKeyBatch_lsCalls c batchSize
      · split
        · exact getKeyBatch_lsCalls c batchSize
        · rw [ih]
          exact getKeyBatch_lsCalls c batchSize

theorem runOp_lsCalls (store : Store) (c : Cursor) (op : CursorOp) :
    (runOp store c op).2.lsCalls = c.lsCalls := by
  cases op with
  | next =>
    show (kNext store c).2.lsCalls = c.lsCalls
    simp only [kNext]
    split
    · rw [kAdvance_lsCalls, kAwaitIndex_lsCalls]
    · split
      · rw [kAdvance_lsCalls, kAwaitIndex_lsCalls]
      · rw [kAdvance_lsCalls, kAwaitIndex_lsCalls]
  | nextv size =>
    show (kNextv store size c).2.lsCalls = c.lsCalls
    simp only [kNextv]
    split
    · rw [getKeyBatch_lsCalls, kAwaitIndex_lsCalls]
    · rw [getKeyBatch_lsCalls, kAwaitIndex_lsCalls]
  | all =>
    show (kAll store c).2.lsCalls = c.lsCalls
    simp only [kAll]
    split
    · exact kAwaitIndex_lsCalls c
    · rw [kAllGo_lsCalls, kAwaitIndex_lsCalls]
  | seek o => rfl

theorem runOps_lsCalls (store : Store) :
    ∀ ops c, ((runOps store ops c).2).lsCalls = c.lsCalls := by
  intro ops
  induction ops with
  | nil => intro c; rfl
  | cons op ops ih =>
    intro c
    simp only [runOps]
    rw [ih, runOp_lsCalls]

/-- C8 (counterexample): the listing is not deferred — constructing a cursor
alone already issues the single `cacache.ls` call (`kInit` starts the
listing promise eagerly, before any operation needs the index). -/
theorem c8_listing_eager_counterexample :
    (kInit ["a"] {}).lsCalls = 1 ∧ (kInit ["a"] {}).lsCalls ≠ 0 := by
  decide

/-- C8 (amended): the backing listing is issued exactly once per cursor —
eagerly at construction rather than deferred to the first operation — and no
sequence of operations (including seeks) ever issues another one; the
listing is never refreshed. -/
theorem c8_single_listing (storeKeys : List String) (o : RangeOpts) (batchSize : Nat)
    (store : Store) (ops : List CursorOp) :
    ((runOps store ops (kInit storeKeys o batchSize)).2).lsCalls = 1 := by
  rw [runOps_lsCalls]
  rfl

theorem dropWhileLen {α : Type} (p : α → Bool) :
    ∀ l : List α, (l.dropWhile p).length ≤ l.length := by
  intro l
  induction l with
  | nil => simp
  | cons a l ih =>
    rw [List.dropWhile_cons]
    split
    · exact le_trans ih (by simp)
    · simp

theorem takeWhileAll {α : Type} (p : α → Bool) :
    ∀ l : List α, ∀ x ∈ l.takeWhile p, p x = true := by
  intro l
  induction l with
  | nil => simp
  | cons a l ih =>
    intro x hx
    rw [List.takeWhile_cons] at hx
    by_cases hpa : p a = true
    · rw [if_pos hpa] at hx
      rcases List.mem_cons.mp hx with h | h
      · rw [h]; exact hpa
      · exact ih x h
    · rw [if_neg hpa] at hx
      simp at hx
  
theorem takeWhileAppend {α : Type} (p : α → Bool) :
    ∀ l₁ l₂ : List α, (∀ x ∈ l₁, p x = true) →
      (l₁ ++ l₂).takeWhile p = l₁ ++ l₂.takeWhile p := by
  intro l₁
  induction l₁ with
  | nil => intro l₂ _; simp
  | cons a l ih =>
    intro l₂ h
    rw [List.cons_append, List.takeWhile_cons, if_pos (h a (List.mem_cons_self a l)),
      ih l₂ (fun x hx => h x (List.mem_cons_of_mem a hx))]
    rfl

theorem mapCongr {α β : Type} (f g : α → β) :
    ∀ l : List α, (∀ x ∈ l, f x = g x) → l.map f = l.map g := by
  intro l
  induction l with
  | nil => intro _; rfl
  | cons a l ih =>
    intro h
    simp only [List.map_cons]
    rw [h a (List.mem_cons_self a l), ih (fun x hx => h x (List.mem_cons_of_mem a hx))]

theorem batchLoop_spec :
    ∀ fuel ops, ops.length < fuel →
      batchLoop fuel ops = ((ops.takeWhile recognizedOp).map toAction, none) := by
  intro fuel
  induction fuel with
  | zero => intro ops h; omega
  | succ fuel ih =>
    intro ops h
    cases ops with
    | nil => rfl
    | cons op rest =>
      simp only [batchLoop]
      have hdw : (op :: rest).dropWhile (fun x => x.type = op.type) =
          rest.dropWhile (fun x => x.type = op.type) := by
        rw [List.dropWhile_cons, if_pos (by simp)]
      have hlen : ((op :: rest).dropWhile (fun x => x.type = op.type)).length < fuel := by
        rw [hdw]
        have := dropWhileLen (fun x => x.type = op.type) rest
        simp only [List.length_cons] at h
        omega
      have hsplit : (op :: rest).takeWhile (fun x => x.type = op.type) ++
          (op :: rest).dropWhile (fun x => x.type = op.type) = op :: rest :=
        List.takeWhile_append_dropWhile _ _
      by_cases hput : op.type = "put"
      · rw [if_pos hput, ih _ hlen]
        have hall : ∀ x ∈ (op :: rest).takeWhile (fun x => x.type = op.type),
            recognizedOp x = true := by
          intro x hx
          have := takeWhileAll (fun x => x.type = op.type) (op :: rest) x hx
          simp only [decide_eq_true_eq] at this
          simp [recognizedOp, this, hput]
        have hTW : (op :: rest).takeWhile recognizedOp =
            (op :: rest).takeWhile (fun x => x.type = op.type) ++
              ((op :: rest).dropWhile (fun x => x.type = op.type)).takeWhile recognizedOp := by
          conv_lhs => rw [← hsplit]
          rw [takeWhileAppend recognizedOp _ _ hall]
        rw [hTW, List.map_append]
        refine congrArg (fun l => (l ++ _, none)) ?_
        refine mapCongr _ _ _ ?_
        intro x hx
        have := takeWhileAll (fun x => x.type = op.type) (op :: rest) x hx
        simp only [decide_eq_true_eq] at this
        simp [toAction, this, hput]
      · by_cases hdel : op.type = "del"
        · rw [if_neg hput, if_pos hdel, ih _ hlen]
          have hall : ∀ x ∈ (op :: rest).takeWhile (fun x => x.type = op.type),
              recognizedOp x = true := by
            intro x hx
            have := takeWhileAll (fun x => x.type = op.type) (op :: rest) x hx
            simp only [decide_eq_true_eq] at this
            simp [recognizedOp, this, hdel]
          have hTW : (op :: rest).takeWhile recognizedOp =
              (op :: rest).takeWhile (fun x => x.type = op.type) ++
                ((op :: rest).dropWhile (fun x => x.type = op.type)).takeWhile recognizedOp := by
            conv_lhs => rw [← hsplit]
            rw [takeWhileAppend recognizedOp _ _ hall]
          rw [hTW, List.map_append]
          refine congrArg (fun l => (l ++ _, none)) ?_
          refine mapCongr _ _ _ ?_
          intro x hx
          have := takeWhileAll (fun x => x.type = op.type) (op :: rest) x hx
          simp only [decide_eq_true_eq] at this
          simp [toAction, this, hdel]
        · rw [if_neg hput, if_neg hdel]
          have : (op :: rest).takeWhile recognizedOp = [] := by
            rw [List.takeWhile_cons, if_neg]
            simp [recognizedOp, hput, hdel]
          rw [this]
          rfl

/-- C9 (counterexample): a batch whose single operation has the
unrecognized type `"merge"` reports no error at all — the `_batch` callback
is invoked with no argument (success) and nothing is applied, rather than
failing with `UnknownOperationKind`. -/
theorem c9_unknown_op_counterexample :
    jsBatch [⟨"merge", "k", "v"⟩] = ([], none) ∧
    (jsBatch [⟨"put", "k", "v"⟩, ⟨"merge", "x", ""⟩, ⟨"put", "y", "z"⟩]).2 = none ∧
    (jsBatch [⟨"put", "k", "v"⟩, ⟨"merge", "x", ""⟩, ⟨"put", "y", "z"⟩]).1 =
      [BatchAction.putC "k" "v"] := by
  decide

/-- C9 (amended): for every operation list, `_batch` reports success (no
error): it applies exactly the operations before the first one whose type is
neither `put` nor `del`, silently dropping that operation and everything
after it, and no `UnknownOperationKind` error exists in the code. -/
theorem c9_batch_success_drops (ops : List BatchOp) :
    jsBatch ops = ((ops.takeWhile recognizedOp).map toAction, none) :=
  batchLoop_spec (ops.length + 1) ops (by omega)

theorem kNextv_ne_empty (store : Store) (size : Nat) (c : Cursor) :
    (kNextv store size c).1 ≠ .empty := by
  simp only [kNextv]
  split <;> simp

theorem kAllGo_ne_empty (store : Store) (batchSize : Nat) :
    ∀ fuel c acc, (kAllGo store batchSize fuel c acc).1 ≠ .empty := by
  intro fuel
  induction fuel with
  | zero => intro c acc; simp [kAllGo]
  | succ fuel ih =>
    intro c acc
    simp only [kAllGo]
    split
    · simp
    · split
      · simp
      · split
        · simp
        · exact ih _ _

/-- C10 (counterexample): on an already-exhausted cursor, the entries
iterator's `kAll` invokes the callback with no result (`empty`), but
`ValueIterator._all`'s callback then evaluates `values.map` on `undefined`
and crashes — so the value cursor's `all` outcome is not the projection of
the entry cursor's outcome. -/
theorem c10_value_all_counterexample :
    (valueAll [] (⟨["a"], 1, true, false, none, 1, 50⟩ : Cursor)).1 = ValResult.crashed ∧
    projectVals (kAll [] (⟨["a"], 1, true, false, none, 1, 50⟩ : Cursor)).1 = ValResult.empty ∧
    (valueAll [] (⟨["a"], 1, true, false, none, 1, 50⟩ : Cursor)).1 ≠
      projectVals (kAll [] (⟨["a"], 1, true, false, none, 1, 50⟩ : Cursor)).1 := by
  decide

/-- C10 (amended): for every store and cursor state, the value iterator's
`next` and `nextv` outcomes are exactly the value-projection of the entries
iterator's outcomes (same successor state); `all` is the projection as well
provided the cursor is not already exhausted when the drain starts — on an
exhausted cursor the value iterator crashes where the entries iterator
reports empty. -/
theorem c10_value_projection (store : Store) (size : Nat) (c : Cursor) :
    valueNext store c = (projectVals (kNext store c).1, (kNext store c).2) ∧
    valueNextv store size c = (projectVals (kNextv store size c).1, (kNextv store size c).2) ∧
    ((kAwaitIndex c).done = false →
      valueAll store c = (projectVals (kAll store c).1, (kAll store c).2)) := by
  refine ⟨?_, ?_, ?_⟩
  · simp only [valueNext]
    cases h : (kNext store c).1 <;> simp [projectVals, h]
  · simp only [valueNextv]
    cases h : (kNextv store size c).1 with
    | empty => exact absurd h (kNextv_ne_empty store size c)
    | entries l => simp [projectVals, h]
    | failed e => simp [projectVals, h]
    | crashed => simp [projectVals, h]
  · intro hdone
    have hk : (kAll store c).1 ≠ .empty := by
      simp only [kAll]
      rw [if_neg (by simp [hdone])]
      exact kAllGo_ne_empty store _ _ _ _
    simp only [valueAll]
    cases h : (kAll store c).1 with
    | empty => exact absurd h hk
    | entries l => simp [projectVals, h]
    | failed e => simp [projectVals, h]
    | crashed => simp [projectVals, h]

/-- C10 (witness): the projection instantiated on a one-key cursor that is
not yet exhausted. -/
theorem c10_value_projection_witness :
    valueAll [("a", "x")] (kInit ["a"] {}) =
      (projectVals (kAll [("a", "x")] (kInit ["a"] {})).1,
        (kAll [("a", "x")] (kInit ["a"] {})).2) :=
  (c10_value_projection [("a", "x")] 1 (kInit ["a"] {})).2.2 (by decide)
